import Mathlib

/-!
Shallow embedding of `snsim/utils.py` (class `GridData`): a 2-D grid
interpolation utility.  Floating-point values are modelled as rationals;
numpy arrays as lists.  The embedding keeps the source's behaviour,
including two quirks of the Python code:

* the per-row interpolation closures built in `GridData.__init__` capture
  the loop variable `i` late-bound, so at call time every stored function
  reads row `len(x0) - 1`;
* the exact-match branch of `GridData.y` calls `self._x0.index(x0)` on a
  numpy array, which has no `index` attribute, so that branch raises
  `AttributeError`.
-/

/-- Scalar `np.interp(x, xp, fp)`: piecewise-linear interpolation with
flat clamping outside `[xp[0], xp[-1]]`, assuming `xp` ascending (numpy
does not verify this).  Called with empty samples, numpy raises; the
model returns 0 there, a case no claim exercises. -/
def interp1 (x : ℚ) : List ℚ → List ℚ → ℚ
  | u1 :: u2 :: us, v1 :: v2 :: vs =>
      if x ≤ u1 then v1
      else if x ≤ u2 then v1 + (x - u1) / (u2 - u1) * (v2 - v1)
      else interp1 x (u2 :: us) (v2 :: vs)
  | [_], v1 :: _ => v1
  | _, _ => 0

/-- `np.searchsorted(a, v)` with the default side, assuming `a` ascending:
the first index whose element is `≥ v`. -/
def searchsorted (a : List ℚ) (v : ℚ) : ℕ :=
  match a with
  | [] => 0
  | x :: xs => if v ≤ x then 0 else searchsorted xs v + 1

/-- The stored state of a `GridData` instance: `self._x0`, `self._x1`,
`self._y` as set by `GridData.__init__`. -/
structure GridData where
  x0 : List ℚ
  x1 : List ℚ
  y : List (List ℚ)
deriving DecidableEq

/-- `self._yfuncs[i]` applied to a query array, as the Python closures
actually behave:  `__init__` appends `lambda x: np.interp(x, self._x1, y[i,:])`
for each `i`, and the lambda reads `i` late-bound, so at call time `i`
equals `len(self._x0) - 1` whichever stored function is invoked.  The row
index argument is therefore ignored by the computation. -/
def GridData.yfuncs (g : GridData) (_i : ℕ) (xs : List ℚ) : List ℚ :=
  xs.map fun x => interp1 x g.x1 (g.y.getD (g.x0.length - 1) [])

/-- Errors the query method `GridData.y` can raise.  `outOfRange` models
the `ValueError` whose message interpolates the query value and the grid's
first and last native x0 (the three payload fields, rendered with
`"{:.2f}"` in the source).  `attributeError` models the `AttributeError`
raised by `self._x0.index(x0)`, since a numpy array has no `index`
method. -/
inductive QueryError where
  | outOfRange (x0q lo hi : ℚ)
  | attributeError
deriving DecidableEq

/-- The query method `GridData.y(self, x0, x1=None, extend=True)`,
transcribed branch by branch from the source.  `self._x0[0]` and
`self._x0[-1]` are modelled with `headD`/`getLastD` (the claims only
concern grids with at least one row, where they agree with Python). -/
def GridData.yAt (g : GridData) (x0q : ℚ) (x1q : Option (List ℚ))
    (extend : Bool) : Except QueryError (List ℚ) :=
  if (x0q < g.x0.headD 0 ∨ g.x0.getLastD 0 < x0q) ∧ extend = false then
    .error (.outOfRange x0q (g.x0.headD 0) (g.x0.getLastD 0))
  else
    let x1 := x1q.getD g.x1
    if x0q ∈ g.x0 then
      .error .attributeError
    else if x0q < g.x0.headD 0 then
      .ok (g.yfuncs 0 x1)
    else if g.x0.getLastD 0 < x0q then
      .ok (g.yfuncs (g.x0.length - 1) x1)
    else
      let i := searchsorted g.x0 x0q
      let y0 := g.yfuncs (i - 1) x1
      let y1 := g.yfuncs i x1
      let dx0 := (x0q - g.x0.getD (i - 1) 0) /
        (g.x0.getD i 0 - g.x0.getD (i - 1) 0)
      .ok (List.zipWith (fun a b => a + dx0 * (b - a)) y0 y1)

/-- The worked example grid of the spec:
x0 = [0, 10], x1 = [0, 1, 2], y = [[0,0,0],[10,20,30]]. -/
def demo : GridData :=
  { x0 := [0, 10], x1 := [0, 1, 2], y := [[0, 0, 0], [10, 20, 30]] }

/-- The error raised by `GridData.loadtxt` for an unrecognized format:
`ValueError("Requested format {} not implemented.".format(fmt))`, carrying
the requested format name. -/
inductive LoadError where
  | unsupportedFormat (fmt : String)
deriving DecidableEq

/-- The loop state of `GridData.loadtxt`: the accumulators `x0`, `x1`, `y`
and the current-run variables `x0_current`, `x1_current`, `y1_current`.
`x1 = none` and `x0Cur = none` model the Python `None` initializations. -/
structure LoadState where
  x0 : List ℚ
  x1 : Option (List ℚ)
  y : List (List ℚ)
  x0Cur : Option ℚ
  x1Cur : List ℚ
  y1Cur : List ℚ
deriving DecidableEq

/-- One iteration of the `for line in open(filename)` loop of
`GridData.loadtxt`, on an already-split line `(x0_tmp, x1_tmp, y_tmp)`.
`cur` is `x0_current` after the `if x0_current is None` initialization;
the branch on `x0_tmp != x0_current` ingests the finished run (setting the
shared `x1` from `x1_current` if still `None`) and resets the run
accumulators; both branches then append `x1_tmp` and `y_tmp`. -/
def loadStep (st : LoadState) (l : ℚ × ℚ × ℚ) : LoadState :=
  let x0tmp := l.1
  let x1tmp := l.2.1
  let ytmp := l.2.2
  let cur : ℚ :=
    match st.x0Cur with
    | none => x0tmp
    | some v => v
  if x0tmp ≠ cur then
    { x0 := st.x0 ++ [cur]
      x1 := some (st.x1.getD st.x1Cur)
      y := st.y ++ [st.y1Cur]
      x0Cur := some x0tmp
      x1Cur := [x1tmp]
      y1Cur := [ytmp] }
  else
    { x0 := st.x0
      x1 := st.x1
      y := st.y
      x0Cur := some cur
      x1Cur := st.x1Cur ++ [x1tmp]
      y1Cur := st.y1Cur ++ [ytmp] }

/-- The full parse of `GridData.loadtxt` over the file's lines (each line
modelled as its three parsed floats), followed by the final
`x0.append(x0_current); y.append(y1_current)` ingest.  The constructor is
then called as `cls(x0, x1, y)`; the triple returned here is those three
arguments.  Row keys are `Option ℚ` because Python appends the unchanged
`None` `x0_current` when the file is empty; for a nonempty file every
entry is a `some`. -/
def loadResult (lines : List (ℚ × ℚ × ℚ)) :
    List (Option ℚ) × Option (List ℚ) × List (List ℚ) :=
  let st := lines.foldl loadStep ⟨[], none, [], none, [], []⟩
  (st.x0.map some ++ [st.x0Cur], st.x1, st.y ++ [st.y1Cur])

/-- The only format identifier `GridData.loadtxt` accepts. -/
def singlevalFmt : String := "singleval"

/-- An arbitrary unrecognized format identifier, from the spec's example
`load(path, "bogus")`. -/
def bogusFmt : String := "bogus"

/-- `GridData.loadtxt(filename, fmt)`: the format guard runs before the
file is opened, so an unsupported format errors independently of the
file's lines; otherwise the lines are parsed by `loadResult`. -/
def GridData.loadtxt (fmt : String) (lines : List (ℚ × ℚ × ℚ)) :
    Except LoadError (List (Option ℚ) × Option (List ℚ) × List (List ℚ)) :=
  if fmt ≠ singlevalFmt then .error (.unsupportedFormat fmt)
  else .ok (loadResult lines)

/-- One grid row serialized to the text format of the `loadtxt`
docstring: one line `x0 x1 y` per column sample, sharing the row key. -/
def rowLines (a : ℚ) (x1 row : List ℚ) : List (ℚ × ℚ × ℚ) :=
  (x1.zip row).map fun q => (a, q.1, q.2)

/-- A whole grid serialized to the text format described in the spec and
the `loadtxt` docstring: rows in order, each as a contiguous run of
equal-x0 lines.  This definition follows the spec's words (it is the
reference serializer for the round-trip claim, not code of the repo). -/
def gridLines (x0 x1 : List ℚ) (y : List (List ℚ)) : List (ℚ × ℚ × ℚ) :=
  ((x0.zip y).map fun p => rowLines p.1 x1 p.2).flatten

deriving instance DecidableEq for Except

theorem loadStep_same (st : LoadState) (a u v : ℚ) (hcur : st.x0Cur = some a) :
    loadStep st (a, u, v) =
      ⟨st.x0, st.x1, st.y, some a, st.x1Cur ++ [u], st.y1Cur ++ [v]⟩ := by
  simp [loadStep, hcur]

theorem loadStep_new (st : LoadState) (a b u v : ℚ) (hcur : st.x0Cur = some a)
    (hne : b ≠ a) :
    loadStep st (b, u, v) =
      ⟨st.x0 ++ [a], some (st.x1.getD st.x1Cur), st.y ++ [st.y1Cur],
        some b, [u], [v]⟩ := by
  simp [loadStep, hcur, hne]

theorem loadStep_first (st : LoadState) (b u v : ℚ) (hcur : st.x0Cur = none) :
    loadStep st (b, u, v) =
      ⟨st.x0, st.x1, st.y, some b, st.x1Cur ++ [u], st.y1Cur ++ [v]⟩ := by
  simp [loadStep, hcur]

theorem foldl_loadStep_run (l : List (ℚ × ℚ)) (st : LoadState) (a : ℚ)
    (hcur : st.x0Cur = some a) :
    List.foldl loadStep st (l.map fun q => (a, q.1, q.2)) =
      ⟨st.x0, st.x1, st.y, some a,
        st.x1Cur ++ l.map Prod.fst, st.y1Cur ++ l.map Prod.snd⟩ := by
  induction l generalizing st with
  | nil =>
    obtain ⟨x0, x1, y, x0Cur, x1Cur, y1Cur⟩ := st
    simp_all
  | cons q l ih =>
    simp only [List.map_cons, List.foldl_cons, loadStep_same st a q.1 q.2 hcur]
    rw [ih ⟨st.x0, st.x1, st.y, some a, st.x1Cur ++ [q.1], st.y1Cur ++ [q.2]⟩ rfl]
    simp

theorem foldl_loadStep_rows (pairs : List (ℚ × List ℚ)) (b : ℚ) (r : List ℚ)
    (x1 : List ℚ) (st : LoadState) (a : ℚ)
    (hcur : st.x0Cur = some a)
    (hx1 : x1 ≠ [])
    (hchain : List.Chain (· ≠ ·) a (b :: pairs.map Prod.fst))
    (hlen : r.length = x1.length)
    (hlens : ∀ p ∈ pairs, (Prod.snd p).length = x1.length) :
    List.foldl loadStep st
        (rowLines b x1 r ++ ((pairs.map fun p => rowLines p.1 x1 p.2).flatten)) =
      ⟨st.x0 ++ a :: (b :: pairs.map Prod.fst).dropLast,
        some (st.x1.getD st.x1Cur),
        st.y ++ st.y1Cur :: (r :: pairs.map Prod.snd).dropLast,
        some ((pairs.map Prod.fst).getLastD b),
        x1,
        (pairs.map Prod.snd).getLastD r⟩ := by
  induction pairs generalizing st a b r with
  | nil =>
    cases x1 with
    | nil => exact absurd rfl hx1
    | cons u us =>
      cases r with
      | nil => simp at hlen
      | cons v vs =>
        simp only [List.length_cons, add_left_inj] at hlen
        cases hchain with
        | cons hab _ =>
        simp only [rowLines, List.zip_cons_cons, List.map_cons, List.map_nil,
          List.flatten_nil, List.append_nil, List.foldl_cons]
        rw [loadStep_new st a b u v hcur (Ne.symm hab)]
        rw [foldl_loadStep_run (us.zip vs) _ b rfl]
        simp [List.map_fst_zip us vs hlen.ge, List.map_snd_zip us vs hlen.le]
  | cons p pairs ih =>
    obtain ⟨b2, r2⟩ := p
    cases x1 with
    | nil => exact absurd rfl hx1
    | cons u us =>
      cases r with
      | nil => simp at hlen
      | cons v vs =>
        simp only [List.length_cons, add_left_inj] at hlen
        simp only [List.map_cons] at hchain
        cases hchain with
        | cons hab htail =>
        have hfirst : List.foldl loadStep st (rowLines b (u :: us) (v :: vs)) =
            ⟨st.x0 ++ [a], some (st.x1.getD st.x1Cur), st.y ++ [st.y1Cur],
              some b, u :: us, v :: vs⟩ := by
          simp only [rowLines, List.zip_cons_cons, List.map_cons, List.foldl_cons]
          rw [loadStep_new st a b u v hcur (Ne.symm hab)]
          rw [foldl_loadStep_run (us.zip vs) _ b rfl]
          simp [List.map_fst_zip us vs hlen.ge, List.map_snd_zip us vs hlen.le]
        simp only [List.map_cons, List.flatten_cons]
        rw [← List.append_assoc, List.foldl_append, List.foldl_append, hfirst,
          ← List.foldl_append,
          ih b2 r2 ⟨st.x0 ++ [a], some (st.x1.getD st.x1Cur), st.y ++ [st.y1Cur],
              some b, u :: us, v :: vs⟩ b rfl htail
            (hlens (b2, r2) (List.mem_cons_self _ _))
            (fun p hp => hlens p (List.mem_cons_of_mem _ hp))]
        simp only [List.getLastD_cons, List.dropLast_cons₂, List.append_assoc,
          List.cons_append, List.singleton_append, Option.getD_some, List.nil_append, and_self]

theorem foldl_loadStep_const (lines : List (ℚ × ℚ × ℚ)) (st : LoadState) (a : ℚ)
    (hcur : st.x0Cur = some a) (hall : ∀ l ∈ lines, l.1 = a) :
    (List.foldl loadStep st lines).x1 = st.x1 ∧
      (List.foldl loadStep st lines).x0Cur = some a := by
  induction lines generalizing st with
  | nil => exact ⟨rfl, hcur⟩
  | cons l lines ih =>
    obtain ⟨b, u, v⟩ := l
    have hb : b = a := hall (b, u, v) (List.mem_cons_self _ _)
    subst hb
    rw [List.foldl_cons, loadStep_same st b u v hcur]
    exact ih _ rfl (fun l hl => hall l (List.mem_cons_of_mem _ hl))

theorem foldl_loadStep_destutter (lines : List (ℚ × ℚ × ℚ)) (st : LoadState)
    (a : ℚ) (hcur : st.x0Cur = some a) :
    (List.foldl loadStep st lines).x0.map some ++
        [(List.foldl loadStep st lines).x0Cur] =
      st.x0.map some ++
        (List.destutter' (· ≠ ·) a (lines.map Prod.fst)).map some := by
  induction lines generalizing st a with
  | nil => simp [hcur, List.destutter']
  | cons l lines ih =>
    obtain ⟨b, u, v⟩ := l
    by_cases hb : b = a
    · subst hb
      rw [List.foldl_cons, loadStep_same st b u v hcur]
      rw [ih _ b rfl]
      simp [List.destutter']
    · rw [List.foldl_cons, loadStep_new st a b u v hcur hb]
      rw [ih _ b rfl]
      simp only [List.map_cons, List.destutter']
      rw [if_pos (Ne.symm hb)]
      simp

theorem dropLast_cons_append_getLastD {α : Type} (c : α) (l : List α) :
    (c :: l).dropLast ++ [l.getLastD c] = c :: l := by
  induction l generalizing c with
  | nil => rfl
  | cons k l ih =>
    rw [List.dropLast_cons₂, List.getLastD_cons, List.cons_append, ih k]

theorem chain_ne_of_chain_lt (c : ℚ) (l : List ℚ)
    (h : List.Chain' (· < ·) (c :: l)) : List.Chain (· ≠ ·) c l :=
  List.Chain.imp (fun _ _ hxy => ne_of_lt hxy) h

/-- C1: the claim that a query at a native x0[i] with the native x1
sequence returns row i, because each row interpolant is bound to its own
row, fails on the code.  At the spec's own example grid, the query at the
native value x0[0] = 0 raises `AttributeError` (the exact-match branch
calls `.index` on a numpy array), and row 0's stored interpolant evaluated
at the native x1 sequence returns row 1's values [10, 20, 30] rather than
row 0's [0, 0, 0], because every closure reads the loop index
late-bound. -/
theorem C1_native_row_query :
    GridData.yAt demo 0 none true = .error .attributeError ∧
    GridData.yfuncs demo 0 [0, 1, 2] = [10, 20, 30] ∧
    GridData.yfuncs demo 0 [0, 1, 2] ≠ [0, 0, 0] := by
  refine ⟨by norm_num [GridData.yAt, demo], ?_, ?_⟩ <;>
    norm_num [GridData.yfuncs, demo, interp1]

/-- C2: the claim that y(5) on the grid x0 = [0, 10], x1 = [0, 1, 2],
y = [[0,0,0],[10,20,30]] returns [5, 10, 15] fails on the code: both
bracketing interpolants read the last row, so the blend returns
[10, 20, 30]. -/
theorem C2_midpoint_query :
    GridData.yAt demo 5 none true = .ok [10, 20, 30] ∧
    ([(10 : ℚ), 20, 30]) ≠ [5, 10, 15] := by
  constructor
  · norm_num [GridData.yAt, GridData.yfuncs, demo, interp1, searchsorted]
  · decide

/-- C3: with extend=false, a query strictly outside [x0[0], x0[-1]] raises
the out-of-range `ValueError` carrying the query value and the native
span, and a query inside the closed interval (endpoints included) never
raises that error (whatever else the method does there). -/
theorem C3_out_of_range (g : GridData) (q : ℚ) (x1q : Option (List ℚ))
    (hne : g.x0 ≠ []) :
    ((q < g.x0.headD 0 ∨ g.x0.getLastD 0 < q) →
      g.yAt q x1q false =
        .error (.outOfRange q (g.x0.headD 0) (g.x0.getLastD 0))) ∧
    (g.x0.headD 0 ≤ q → q ≤ g.x0.getLastD 0 →
      ∀ w lo hi, g.yAt q x1q false ≠ .error (.outOfRange w lo hi)) := by
  constructor
  · intro h
    rw [GridData.yAt, if_pos ⟨h, rfl⟩]
  · intro h1 h2 w lo hi
    rw [GridData.yAt, if_neg (fun hc =>
      hc.1.elim (fun hl => absurd hl (not_lt.mpr h1))
        (fun hr => absurd hr (not_lt.mpr h2)))]
    split
    · simp
    · split
      · simp
      · split <;> simp

/-- C3 witness: the demo grid rejects q = -5 with extend=false, carrying
the query value and the span (0, 10). -/
theorem C3_out_of_range_witness :
    GridData.yAt demo (-5) none false = .error (.outOfRange (-5) 0 10) :=
  (C3_out_of_range demo (-5) none (by decide)).1 (Or.inl (by decide))

/-- C4: the claim that a below-range query with extend=true returns the
same sequence as the query at x0[0] fails on the code: on the demo grid
the clamped query returns [10, 20, 30] (the last row, by the late-bound
closures) while the query at x0[0] = 0 raises `AttributeError` in the
exact-match branch, so the two are not equal. -/
theorem C4_clamp_vs_native :
    GridData.yAt demo (-5) none true = .ok [10, 20, 30] ∧
    GridData.yAt demo 0 none true = .error .attributeError := by
  constructor
  · norm_num [GridData.yAt, GridData.yfuncs, demo, interp1]
  · norm_num [GridData.yAt, demo]

/-- C5: the claim that an interior query equals the blend of the queries
at the two bracketing native x0 values fails on the code: on the demo
grid y(5) returns a value, but the reference queries at x0[0] = 0 and
x0[1] = 10 both raise `AttributeError`, so the claimed identity is
unsatisfiable at this input. -/
theorem C5_interior_blend :
    GridData.yAt demo 5 none true = .ok [10, 20, 30] ∧
    GridData.yAt demo 0 none true = .error .attributeError ∧
    GridData.yAt demo 10 none true = .error .attributeError := by
  refine ⟨?_, ?_, ?_⟩
  · norm_num [GridData.yAt, GridData.yfuncs, demo, interp1, searchsorted]
  · norm_num [GridData.yAt, demo]
  · norm_num [GridData.yAt, demo]

/-- C6: the claim that a row interpolant clamps an out-of-range x1 query
to the nearest edge sample of its own row fails on the code: row 0 of the
demo grid has edge samples 0 (left) and 0 (right), but its stored
interpolant returns 10 at x1 = -1 and 30 at x1 = 3, the edge samples of
the last row, because of the late-bound closure.  (No error is raised:
the clamping itself happens, just on the wrong row.) -/
theorem C6_x1_flat_extrapolation :
    GridData.yfuncs demo 0 [-1] = [10] ∧
    GridData.yfuncs demo 0 [3] = [30] ∧
    GridData.yfuncs demo 0 [-1] ≠ [0] := by
  refine ⟨?_, ?_, ?_⟩ <;> norm_num [GridData.yfuncs, demo, interp1]

/-- C7: for any format identifier other than "singleval", loadtxt raises
the unsupported-format error naming the requested format, and the result
does not depend on the file's lines (the guard runs before the file is
opened). -/
theorem C7_unsupported_format (fmt : String) (h : fmt ≠ singlevalFmt)
    (lines lines2 : List (ℚ × ℚ × ℚ)) :
    GridData.loadtxt fmt lines = .error (.unsupportedFormat fmt) ∧
    GridData.loadtxt fmt lines = GridData.loadtxt fmt lines2 := by
  simp [GridData.loadtxt, h]

/-- C7 witness at the format "bogus" and two different line lists. -/
theorem C7_unsupported_format_witness :
    GridData.loadtxt bogusFmt [(1, 2, 3)] = .error (.unsupportedFormat bogusFmt) ∧
    GridData.loadtxt bogusFmt [(1, 2, 3)] = GridData.loadtxt bogusFmt [] :=
  C7_unsupported_format bogusFmt (by decide) [(1, 2, 3)] []

/-- C8 counterexample: the round-trip fails as stated for a one-row grid.
Serializing x0 = [0], x1 = [0], y = [[1]] and loading it back does not
reproduce x1: with a single x0 group the parser never assigns the shared
x1 (it stays the None sentinel). -/
theorem C8_roundtrip_counterexample :
    GridData.loadtxt singlevalFmt (gridLines [0] [0] [[1]]) ≠
      .ok ([some 0], some [0], [[1]]) := by decide

/-- C8 amended: for every grid with at least two rows, a nonempty x1, x0
strictly increasing and rectilinear y (each row as long as x1),
serializing to the text format and loading with format "singleval"
reproduces x0 (as the parser's row keys), x1 and y exactly. -/
theorem C8_roundtrip (x0 x1 : List ℚ) (y : List (List ℚ))
    (hmono : List.Chain' (· < ·) x0)
    (hN : 2 ≤ x0.length)
    (hM : x1 ≠ [])
    (hNy : y.length = x0.length)
    (hrows : ∀ row ∈ y, row.length = x1.length) :
    GridData.loadtxt singlevalFmt (gridLines x0 x1 y) =
      .ok (x0.map some, some x1, y) := by
  rw [GridData.loadtxt, if_neg (fun h => h rfl)]
  cases x0 with
  | nil => simp at hN
  | cons a x0t =>
    cases x0t with
    | nil => norm_num at hN
    | cons b x0'' =>
      cases y with
      | nil => simp at hNy
      | cons r yt =>
        cases yt with
        | nil => simp at hNy
        | cons r2 y'' =>
          cases x1 with
          | nil => exact absurd rfl hM
          | cons u us =>
            simp only [List.length_cons, add_left_inj] at hNy
            obtain ⟨v, vs, rfl⟩ : ∃ v vs, r = v :: vs := by
              cases r with
              | nil =>
                have := hrows [] (List.mem_cons_self _ _)
                simp at this
              | cons v vs => exact ⟨v, vs, rfl⟩
            have hrlen : vs.length = us.length := by
              have := hrows (v :: vs) (List.mem_cons_self _ _)
              simpa using this
            have hr2len : r2.length = (u :: us).length :=
              hrows r2 (List.mem_cons_of_mem _ (List.mem_cons_self _ _))
            have hz : (x0''.zip y'').map Prod.fst = x0'' :=
              List.map_fst_zip x0'' y'' (le_of_eq hNy.symm)
            have hzs : (x0''.zip y'').map Prod.snd = y'' :=
              List.map_snd_zip x0'' y'' hNy.le
            have h1 : List.foldl loadStep ⟨[], none, [], none, [], []⟩
                (rowLines a (u :: us) (v :: vs)) =
                ⟨[], none, [], some a, u :: us, v :: vs⟩ := by
              simp only [rowLines, List.zip_cons_cons, List.map_cons,
                List.foldl_cons]
              rw [loadStep_first _ a u v rfl]
              rw [foldl_loadStep_run (us.zip vs) _ a rfl]
              simp [List.map_fst_zip us vs hrlen.ge,
                List.map_snd_zip us vs hrlen.le]
            have hchain : List.Chain (· ≠ ·) a
                (b :: (x0''.zip y'').map Prod.fst) := by
              rw [hz]
              exact chain_ne_of_chain_lt a (b :: x0'') hmono
            have hlens : ∀ p ∈ x0''.zip y'',
                (Prod.snd p).length = (u :: us).length := fun p hp =>
              hrows p.2 (List.mem_cons_of_mem _
                (List.mem_cons_of_mem _ (List.of_mem_zip hp).2))
            have h2 := foldl_loadStep_rows (x0''.zip y'') b r2 (u :: us)
              ⟨[], none, [], some a, u :: us, v :: vs⟩ a rfl hM hchain
              hr2len hlens
            rw [hz, hzs] at h2
            dsimp only at h2
            simp only [gridLines, List.zip_cons_cons, List.map_cons,
              List.flatten_cons]
            simp only [loadResult]
            rw [List.foldl_append, h1, h2]
            have hglue1 := congrArg (List.map (some : ℚ → Option ℚ))
              (dropLast_cons_append_getLastD b x0'')
            simp only [List.map_append, List.map_cons, List.map_nil] at hglue1
            simp only [List.nil_append, Option.getD_some, Option.getD_none,
              List.map_cons,
              List.cons_append, List.singleton_append,
              dropLast_cons_append_getLastD, hglue1]

/-- C8 witness: round-trip of the concrete 2-row grid x0 = [0, 1],
x1 = [2], y = [[3], [4]]. -/
theorem C8_roundtrip_witness :
    GridData.loadtxt singlevalFmt (gridLines [0, 1] [2] [[3], [4]]) =
      .ok ([some 0, some 1], some [2], [[3], [4]]) :=
  C8_roundtrip [0, 1] [2] [[3], [4]] (by norm_num [List.chain'_cons])
    (by decide) (by decide) (by decide) (by decide)

/-- C9: if a nonempty file's lines all share one x0 value (a single x0
group), the load never assigns the shared x1 sequence: the grid is built
with the x1 argument still the None sentinel, since x1 is only captured
when a second, different x0 value is met. -/
theorem C9_single_group_x1_none (lines : List (ℚ × ℚ × ℚ)) (a : ℚ)
    (hne : lines ≠ []) (hall : ∀ l ∈ lines, l.1 = a) :
    ∃ ks ys, GridData.loadtxt singlevalFmt lines = .ok (ks, none, ys) := by
  cases lines with
  | nil => exact absurd rfl hne
  | cons l lines =>
    obtain ⟨b, u, v⟩ := l
    have hb : b = a := hall (b, u, v) (List.mem_cons_self _ _)
    subst hb
    have hx1 : (loadResult ((b, u, v) :: lines)).2.1 = none := by
      simp only [loadResult]
      rw [List.foldl_cons, loadStep_first _ b u v rfl]
      exact (foldl_loadStep_const lines _ b rfl
        (fun l hl => hall l (List.mem_cons_of_mem _ hl))).1
    refine ⟨(loadResult ((b, u, v) :: lines)).1,
      (loadResult ((b, u, v) :: lines)).2.2, ?_⟩
    rw [GridData.loadtxt, if_neg (fun h => h rfl), ← hx1]

/-- C9 witness: a one-line file keeps x1 = None. -/
theorem C9_single_group_x1_none_witness :
    ∃ ks ys, GridData.loadtxt singlevalFmt [(1, 0, 2)] = .ok (ks, none, ys) :=
  C9_single_group_x1_none [(1, 0, 2)] 1 (by decide) (by decide)

/-- C10: the parser starts a new row exactly at changes of consecutive x0
values, with no sorting or merging: for any nonempty file, the grid's row
keys are the representatives of the contiguous equal-x0 runs of the file
(adjacent-deduplication of the x0 column), so a key recurring after an
intervening different key recurs in the row-key sequence. -/
theorem C10_contiguous_runs (lines : List (ℚ × ℚ × ℚ)) (hne : lines ≠ []) :
    ∃ x1s ys, GridData.loadtxt singlevalFmt lines =
      .ok (((lines.map Prod.fst).destutter (· ≠ ·)).map some, x1s, ys) := by
  cases lines with
  | nil => exact absurd rfl hne
  | cons l lines =>
    obtain ⟨b, u, v⟩ := l
    have hx0 : (loadResult ((b, u, v) :: lines)).1 =
        ((((b, u, v) :: lines).map Prod.fst).destutter (· ≠ ·)).map some := by
      simp only [loadResult]
      rw [List.foldl_cons, loadStep_first _ b u v rfl,
        foldl_loadStep_destutter lines _ b rfl]
      simp [List.destutter]
    refine ⟨(loadResult ((b, u, v) :: lines)).2.1,
      (loadResult ((b, u, v) :: lines)).2.2, ?_⟩
    rw [GridData.loadtxt, if_neg (fun h => h rfl), ← hx0]

/-- C10 witness: the file with x0 column [1, 2, 1] yields row keys
[1, 2, 1] — the key 1 occurs twice, one row per contiguous run. -/
theorem C10_contiguous_runs_witness :
    ∃ x1s ys, GridData.loadtxt singlevalFmt [(1, 5, 7), (2, 5, 8), (1, 5, 9)] =
      .ok ([some 1, some 2, some 1], x1s, ys) := by
  have h := C10_contiguous_runs [(1, 5, 7), (2, 5, 8), (1, 5, 9)] (by decide)
  simpa [List.destutter, List.destutter'] using h
